import Mathlib

/-!
Shallow embedding of the CommercialRTCAnalyzer log server
(`src/unnamed/part_000`, the enhanced HTTPS variant; `src/server.js` is an
earlier iteration whose ingestion loop and `finalizeSession` guard are
identical in the respects verified here).

The server is a single-threaded event-loop program.  We embed it as pure
functions over an explicit `ServerState`, with externally observable
actions (file writes, analyzer subprocess spawns, console logs) reified as
an `Effect` list, and the three event-loop callbacks (an HTTP POST /log
request, a session-timeout timer firing, an analyzer subprocess exiting)
reified as an `Event` type with a `step` function.

JavaScript truthiness on the values that the code tests with `if (x)` is
modelled explicitly (`JVal.truthy`, `optTruthy`), and `setTimeout` /
`clearTimeout` are modelled by tagging each armed timer with a fresh
identifier: a fire event is delivered with the identifier of the timer
that was armed, and the callback body runs only when that identifier is
still the one currently armed for the session (a cleared or superseded
timer never fires).
-/

namespace RTCA

/-- JVal models a JavaScript primitive value as stored in a log entry
field (`startTime` is an ISO string in practice but the code only ever
tests its truthiness and passes it to string splitting). -/
inductive JVal where
  | str (s : String)
  | num (n : Int)
  deriving DecidableEq, Repr

/-- JVal.truthy is JavaScript truthiness for the modelled primitives:
a string is truthy iff non-empty, a number iff non-zero. -/
def JVal.truthy : JVal → Bool
  | .str s => !s.isEmpty
  | .num n => n != 0

/-- optTruthy is JavaScript truthiness of a possibly-absent value:
`undefined`/`null` (modelled `none`) is falsy. -/
def optTruthy : Option JVal → Bool
  | none => false
  | some v => v.truthy

/-- StatObj models one raw stat object inside a `stats` entry's
`rawStats` mapping; the server only reads its optional `startTime`. -/
structure StatObj where
  startTime : Option JVal
  deriving DecidableEq, Repr

/-- LogEntry models one element of a POSTed batch.  `rawStats` is the
stat-id → stat-object mapping of a `stats` entry (association list, in
JavaScript object insertion order); `iceConnectionState` belongs to
`state_change` entries; `sessionId` is the fallback session id read off
the first entry.  Fields an entry does not carry are `none`. -/
structure LogEntry where
  type : String
  rawStats : Option (List (String × StatObj)) := none
  iceConnectionState : Option String := none
  sessionId : Option String := none
  deriving DecidableEq, Repr

/-- Session is the in-memory per-session record created by the POST /log
handler (`sessions[sessionId] = { ... }`, part_000 lines 185–195). -/
structure Session where
  logs : List LogEntry
  isClosed : Bool
  timedOut : Bool
  firstStatsTimestamp : Option JVal
  earliestStatsStartTime : Option JVal
  analyzed : Bool
  lastActivityTime : Nat
  deriving DecidableEq, Repr

/-- Session.init is the fresh record: all flags false, metadata null,
`lastActivityTime = Date.now()`. -/
def Session.init (now : Nat) : Session :=
  { logs := []
    isClosed := false
    timedOut := false
    firstStatsTimestamp := none
    earliestStatsStartTime := none
    analyzed := false
    lastActivityTime := now }

/-- Timer models one armed `setTimeout` handle: a fresh identifier (so
that clearing/superseding can be expressed) and the wall-clock instant it
is scheduled to fire, `armed-at + SESSION_TIMEOUT`. -/
structure Timer where
  id : Nat
  fireAt : Nat
  deriving DecidableEq, Repr

/-- SESSION_TIMEOUT is the inactivity window, 10 seconds in
milliseconds (part_000 line 29). -/
def SESSION_TIMEOUT : Nat := 10000

/-- ServerState is the whole mutable state of the server process: the
`sessions` table, the `sessionTimeouts` table, and a counter supplying
fresh timer identifiers. -/
structure ServerState where
  sessions : String → Option Session
  sessionTimeouts : String → Option Timer
  nextTimerId : Nat

/-- emptyState is the state at process start: both tables empty. -/
def emptyState : ServerState :=
  { sessions := fun _ => none
    sessionTimeouts := fun _ => none
    nextTimerId := 0 }

/-- setSession writes one entry of the sessions table. -/
def setSession (st : ServerState) (sid : String) (s : Session) : ServerState :=
  { st with sessions := fun i => if i = sid then some s else st.sessions i }

/-- Config models the environment the server probes: whether
`webrtc_analyzer.py` exists next to the server, and an oracle for
JavaScript's `JSON.parse` succeeding on a candidate string (the analyzer
is an external collaborator, so parseability of its output is a
parameter, not repository code). -/
structure Config where
  pyScriptExists : Bool
  parseJson : List Char → Bool

/-- extractTimeFromISO (part_000 lines 44–53): from an ISO string like
"2025-02-26T05:46:26.093Z" produce "05_46_26"; on any exception
(missing 'T', or too few ':'-separated fields so that `.split` is called
on `undefined`) the catch block returns the fallback
`new Date().toISOString().replace(...)`, passed here as `fallback`. -/
def extractTimeFromISO (fallback : String) (isoString : String) : String :=
  match (isoString.splitOn "T").drop 1 with
  | [] => fallback
  | afterT :: _ =>
    let timePart := (afterT.splitOn "Z").headD ""
    match timePart.splitOn ":" with
    | hh :: mm :: ssMillis :: _ =>
      let ss := (ssMillis.splitOn ".").headD ""
      hh ++ "_" ++ mm ++ "_" ++ ss
    | _ => fallback

/-- extractTimeFromJVal: the code applies `extractTimeFromISO` to the
stored `earliestStatsStartTime`; calling `.split` on a number throws,
which the catch block turns into the fallback. -/
def extractTimeFromJVal (fallback : String) (v : JVal) : String :=
  match v with
  | .str s => extractTimeFromISO fallback s
  | .num _ => fallback

/-- Effect reifies the externally observable actions of the server:
writing the combined-log snapshot for a session (path
`ANALYSIS_DIR/sessionId/folderName/all_logs_sessionId.json`), spawning
the analyzer subprocess (carrying the `newLogsOnly` flag it was invoked
under), writing the canonical final-result file (path
`ANALYSIS_DIR/sessionId/final_results.json`), and console logging. -/
inductive Effect where
  | writeCombined (sessionId : String) (folderName : String) (logs : List LogEntry)
  | spawnAnalyzer (sessionId : String) (folderName : String) (newLogsOnly : Bool)
  | writeFinalResults (sessionId : String) (content : List Char)
  | logMsg (msg : String)
  deriving DecidableEq, Repr

/-- isWriteEffect: the effect persists data to the filesystem. -/
def isWriteEffect : Effect → Bool
  | .writeCombined _ _ _ => true
  | .writeFinalResults _ _ => true
  | _ => false

/-- isSpawnEffect: the effect launches an analyzer subprocess. -/
def isSpawnEffect : Effect → Bool
  | .spawnAnalyzer _ _ _ => true
  | _ => false

/-- isFinalWrite: the effect writes the canonical final-result path of
session `sid`. -/
def isFinalWrite (sid : String) : Effect → Bool
  | .writeFinalResults s _ => s = sid
  | _ => false

/-- firstIdxOf models JavaScript `String.prototype.indexOf` for a single
character over the captured stdout (as a character list): index of the
first occurrence, `none` standing for -1. -/
def firstIdxOf (c : Char) : List Char → Option Nat
  | [] => none
  | x :: xs => if x = c then some 0 else (firstIdxOf c xs).map (· + 1)

/-- lastIdxOf models JavaScript `String.prototype.lastIndexOf` for a
single character: index of the last occurrence, `none` standing for -1. -/
def lastIdxOf (c : Char) : List Char → Option Nat
  | [] => none
  | x :: xs =>
    match lastIdxOf c xs with
    | some j => some (j + 1)
    | none => if x = c then some 0 else none

/-- extractJsonRegion (part_000 lines 105–109): the candidate JSON
object in the analyzer's stdout is `pyOutput.substring(jsonStart,
jsonEnd + 1)` where `jsonStart = indexOf('\x7b')` and `jsonEnd =
lastIndexOf('\x7d')`, provided `jsonStart >= 0 && jsonEnd >= 0 &&
jsonEnd > jsonStart`; otherwise there is no candidate. -/
def extractJsonRegion (out : List Char) : Option (List Char) :=
  match firstIdxOf '{' out, lastIdxOf '}' out with
  | some i, some j => if i < j then some ((out.drop i).take (j + 1 - i)) else none
  | _, _ => none

/-- analyzerOnClose (part_000 lines 100–128): the `close` handler of a
spawned analyzer.  It extracts the brace-delimited region of the
captured stdout and tries `JSON.parse`; on success it writes the
final-result file for the session exactly when the session's `isClosed`
or `timedOut` flag is set at this moment (the handler closes over the
live session object); when no region exists, or parsing throws, it only
logs.  The parsed value is re-serialized by `JSON.stringify` for the
write; serialization is abstracted by recording the extracted region as
the written content. -/
def analyzerOnClose (cfg : Config) (sessionInfo : Session) (sessionId : String)
    (pyOutput : List Char) : List Effect :=
  match extractJsonRegion pyOutput with
  | some jsonString =>
    if cfg.parseJson jsonString then
      if sessionInfo.isClosed || sessionInfo.timedOut then
        [Effect.writeFinalResults sessionId jsonString]
      else
        []
    else
      [Effect.logMsg "Could not parse Python output"]
  | none => [Effect.logMsg "No valid JSON found in Python output"]

/-- processLogsAndAnalyze (part_000 lines 56–132): look up the session
(return silently if absent), derive the timestamp folder name from
`earliestStatsStartTime` when truthy (else from the current time), write
the combined-log snapshot there, and — when the Python script exists —
spawn the analyzer on it.  The server state itself is not modified. -/
def processLogsAndAnalyze (cfg : Config) (nowIso : String) (sessionId : String)
    (newLogsOnly : Bool) (st : ServerState) : ServerState × List Effect :=
  match st.sessions sessionId with
  | none => (st, [])
  | some sessionInfo =>
    let folderName :=
      match sessionInfo.earliestStatsStartTime with
      | some v => if v.truthy then extractTimeFromJVal nowIso v else nowIso
      | none => nowIso
    let writes := [Effect.writeCombined sessionId folderName sessionInfo.logs]
    if cfg.pyScriptExists then
      (st, writes ++ [Effect.spawnAnalyzer sessionId folderName newLogsOnly])
    else
      (st, writes ++ [Effect.logMsg "Python analyzer not found"])

/-- setupSessionTimeout (part_000 lines 135–157): clear any existing
timer for the session (modelled by overwriting the table entry, so the
old identifier is no longer armed and can never fire) and arm a fresh
one scheduled `SESSION_TIMEOUT` from now. -/
def setupSessionTimeout (now : Nat) (sessionId : String) (st : ServerState) : ServerState :=
  { st with
    sessionTimeouts := fun i =>
      if i = sessionId then some ⟨st.nextTimerId, now + SESSION_TIMEOUT⟩
      else st.sessionTimeouts i
    nextTimerId := st.nextTimerId + 1 }

/-- finalizeSession (part_000 lines 160–169): the idempotency gate.  If
the session is absent or already `analyzed`, return at once; otherwise
set `analyzed := true` first and only then run the final processing
pass (`newLogsOnly = false`). -/
def finalizeSession (cfg : Config) (nowIso : String) (sessionId : String)
    (st : ServerState) : ServerState × List Effect :=
  match st.sessions sessionId with
  | none => (st, [])
  | some sessionInfo =>
    if sessionInfo.analyzed then (st, [])
    else
      processLogsAndAnalyze cfg nowIso sessionId false
        (setSession st sessionId { sessionInfo with analyzed := true })

/-- fireTimeout: delivery of the timeout callback armed with identifier
`timerId`.  JavaScript semantics: the callback runs only if that handle
was not cleared, i.e. only if `timerId` is still the armed timer of the
session.  The callback body (part_000 lines 142–156) marks the session
`timedOut` and `isClosed`, runs `finalizeSession`, and deletes the
timeout entry. -/
def fireTimeout (cfg : Config) (nowIso : String) (sessionId : String) (timerId : Nat)
    (st : ServerState) : ServerState × List Effect :=
  match st.sessionTimeouts sessionId with
  | none => (st, [])
  | some t =>
    if t.id = timerId then
      let st1 :=
        match st.sessions sessionId with
        | some s => setSession st sessionId { s with timedOut := true, isClosed := true }
        | none => st
      let r :=
        match st1.sessions sessionId with
        | some _ => finalizeSession cfg nowIso sessionId st1
        | none => (st1, [])
      ({ r.1 with sessionTimeouts := fun i =>
          if i = sessionId then none else r.1.sessionTimeouts i },
       Effect.logMsg "Session timed out" :: r.2)
    else (st, [])

/-- iceClosedStates: the ICE connection states that close a session. -/
def iceClosedStates : List String := ["closed", "failed", "disconnected"]

/-- entryClosesSession: `entry.type === 'state_change' &&
['closed','failed','disconnected'].includes(entry.iceConnectionState)`. -/
def entryClosesSession (entry : LogEntry) : Bool :=
  entry.type == "state_change" &&
    (match entry.iceConnectionState with
     | some s => iceClosedStates.contains s
     | none => false)

/-- entryStatPairs: the `rawStats` pairs scanned by the ingestion loop —
non-empty only for a truthy `entry.rawStats` on a `stats` entry. -/
def entryStatPairs (entry : LogEntry) : List (String × StatObj) :=
  if entry.type == "stats" then (entry.rawStats).getD [] else []

/-- updEarliestStep: the effect of scanning one stat object —
`if (statObj.startTime && !sessions[sessionId].earliestStatsStartTime)`
store it. -/
def updEarliestStep (acc : Option JVal) (p : String × StatObj) : Option JVal :=
  match p.2.startTime with
  | some v => if v.truthy && !optTruthy acc then some v else acc
  | none => acc

/-- updEarliest: the effect on `earliestStatsStartTime` of scanning one
entry's stat objects in order. -/
def updEarliest (cur : Option JVal) (pairs : List (String × StatObj)) : Option JVal :=
  pairs.foldl updEarliestStep cur

/-- processEntry: the body of the `for (const entry of logs)` loop
(part_000 lines 198–218): push the entry, scan stats for the earliest
start time, and set `isClosed` on a closing state change. -/
def processEntry (s : Session) (entry : LogEntry) : Session :=
  let s1 := { s with logs := s.logs ++ [entry] }
  let s2 := { s1 with
    earliestStatsStartTime := updEarliest s1.earliestStatsStartTime (entryStatPairs entry) }
  if entryClosesSession entry then { s2 with isClosed := true } else s2

/-- resolveSessionId (part_000 lines 179–182): header value if truthy,
else the first entry's `sessionId` if truthy, else "unknown-session". -/
def resolveSessionId (header : Option String) (logs : List LogEntry) : String :=
  match header with
  | some h => if h.isEmpty then resolveFromLogs logs else h
  | none => resolveFromLogs logs
where
  resolveFromLogs (logs : List LogEntry) : String :=
    match logs.head? with
    | some e =>
      match e.sessionId with
      | some s => if s.isEmpty then "unknown-session" else s
      | none => "unknown-session"
    | none => "unknown-session"

/-- ingestBatch: the accepted-batch tail of the POST /log handler
(part_000 lines 197–250), run after validation and get-or-create, on a
state `st1` whose table already holds the session: fold the ingestion
loop over the batch, refresh `lastActivityTime`, run a non-final
analysis pass, rearm the inactivity timer, send 200, and finally — if
the session is now closed — finalize. -/
def ingestBatch (cfg : Config) (now : Nat) (nowIso : String) (sessionId : String)
    (logs : List LogEntry) (st1 : ServerState) :
    Nat × ServerState × List Effect :=
  let s0 := (st1.sessions sessionId).getD (Session.init now)
  let s1 := logs.foldl processEntry s0
  let s2 := { s1 with lastActivityTime := now }
  let st2 := setSession st1 sessionId s2
  let p := processLogsAndAnalyze cfg nowIso sessionId true st2
  let st3 := setupSessionTimeout now sessionId p.1
  let f :=
    if ((st3.sessions sessionId).map Session.isClosed).getD false then
      finalizeSession cfg nowIso sessionId st3
    else (st3, [])
  (200, f.1, p.2 ++ f.2)

/-- postLog (part_000 lines 172–251): the POST /log handler.  Reject
with 400 when the body is not an array (`none`) or is empty, touching
nothing.  Otherwise resolve the session id, get-or-create the record,
and run the accepted-batch tail.  Returns the HTTP status, the new
state, and the effects in program order. -/
def postLog (cfg : Config) (now : Nat) (nowIso : String) (header : Option String)
    (body : Option (List LogEntry)) (st : ServerState) :
    Nat × ServerState × List Effect :=
  match body with
  | none => (400, st, [])
  | some logs =>
    if logs.isEmpty then (400, st, [])
    else
      let sessionId := resolveSessionId header logs
      let st1 :=
        match st.sessions sessionId with
        | some _ => st
        | none => setSession st sessionId (Session.init now)
      ingestBatch cfg now nowIso sessionId logs st1

/-- Event: the three event-loop callbacks that drive the server. -/
inductive Event where
  | post (now : Nat) (nowIso : String) (header : Option String)
         (body : Option (List LogEntry))
  | timerFire (nowIso : String) (sessionId : String) (timerId : Nat)
  | analyzerClose (sessionId : String) (newLogsOnly : Bool) (exitCode : Int)
                  (pyOutput : List Char)

/-- step: one event-loop turn.  An analyzer `close` handler closes over
the live session object, so it reads the session state current at
delivery time; sessions are never deleted, so the table lookup yields
that object. -/
def step (cfg : Config) (st : ServerState) : Event → ServerState × List Effect
  | .post now nowIso header body =>
    let r := postLog cfg now nowIso header body st
    (r.2.1, r.2.2)
  | .timerFire nowIso sid tid => fireTimeout cfg nowIso sid tid st
  | .analyzerClose sid _ _ out =>
    match st.sessions sid with
    | some s => (st, analyzerOnClose cfg s sid out)
    | none => (st, [])

/-- sessionLogsD: the logs of a session, `[]` when the session does not
exist yet. -/
def sessionLogsD (st : ServerState) (sid : String) : List LogEntry :=
  ((st.sessions sid).map Session.logs).getD []

/-- sessionEarliestD: the `earliestStatsStartTime` of a session, `none`
when the session does not exist yet. -/
def sessionEarliestD (st : ServerState) (sid : String) : Option JVal :=
  ((st.sessions sid).map Session.earliestStatsStartTime).getD none

/-- entryStarts: the `startTime` values present on the stat objects the
ingestion loop scans for one entry, in scan order. -/
def entryStarts (entry : LogEntry) : List JVal :=
  (entryStatPairs entry).filterMap (fun p => p.2.startTime)

/-- firstTruthyStart is the specification-side description of
`earliestStatsStartTime`: the first truthy `startTime` carried by any
stat object of any stats entry, in arrival order. -/
def firstTruthyStart (entries : List LogEntry) : Option JVal :=
  ((entries.map entryStarts).flatten).find? JVal.truthy

/-- foldEarliest: the cumulative effect of the ingestion loop on
`earliestStatsStartTime` over a list of entries. -/
def foldEarliest (cur : Option JVal) (entries : List LogEntry) : Option JVal :=
  entries.foldl (fun acc e => updEarliest acc (entryStatPairs e)) cur

/-- TimerInv: every armed timer identifier was drawn from the fresh-id
counter, so it is smaller than `nextTimerId`.  This holds at process
start and is preserved by every event; it is what makes a superseded
timer identifier permanently dead. -/
def TimerInv (st : ServerState) : Prop :=
  ∀ sid t, st.sessionTimeouts sid = some t → t.id < st.nextTimerId

/-- cfgYes: environment with the analyzer script present and analyzer
stdout that always parses. -/
def cfgYes : Config := { pyScriptExists := true, parseJson := fun _ => true }

/-- cfgNo: environment with the analyzer script present and analyzer
stdout that never parses. -/
def cfgNo : Config := { pyScriptExists := true, parseJson := fun _ => false }

/-- closingEntry: a state_change entry whose ICE state closes the
session. -/
def closingEntry : LogEntry :=
  { type := "state_change", iceConnectionState := some "failed", sessionId := some "s1" }

/-- plainEntry: a stats entry with no rawStats. -/
def plainEntry : LogEntry := { type := "stats" }

/-- falsyStatsEntry: a stats entry whose stat objects carry only falsy
startTime values (the number 0 and the empty string). -/
def falsyStatsEntry : LogEntry :=
  { type := "stats",
    rawStats := some [("a", { startTime := some (JVal.num 0) }),
                      ("b", { startTime := some (JVal.str "") })] }

/-- startEntry: a stats entry carrying one startTime value. -/
def startEntry (v : JVal) : LogEntry :=
  { type := "stats", rawStats := some [("a", { startTime := some v })] }

/-- stArmed: a state with a timer (identifier 0) armed for session
"s1". -/
def stArmed : ServerState :=
  { emptyState with
    sessionTimeouts := fun i => if i = "s1" then some ⟨0, 10000⟩ else none
    nextTimerId := 1 }

/-! Helper lemmas about the state primitives. -/

theorem setSession_self (st : ServerState) (sid : String) (s : Session) :
    (setSession st sid s).sessions sid = some s := by
  simp [setSession]

theorem setSession_other (st : ServerState) (sid sid' : String) (s : Session)
    (h : sid' ≠ sid) : (setSession st sid s).sessions sid' = st.sessions sid' := by
  simp [setSession, h]

theorem setSession_timeouts (st : ServerState) (sid : String) (s : Session) :
    (setSession st sid s).sessionTimeouts = st.sessionTimeouts := rfl

theorem setSession_nextTimerId (st : ServerState) (sid : String) (s : Session) :
    (setSession st sid s).nextTimerId = st.nextTimerId := rfl

theorem processLogsAndAnalyze_fst (cfg : Config) (nowIso sid : String) (b : Bool)
    (st : ServerState) : (processLogsAndAnalyze cfg nowIso sid b st).1 = st := by
  unfold processLogsAndAnalyze
  cases st.sessions sid
  · rfl
  · simp only
    split <;> rfl

theorem processLogsAndAnalyze_spawn (cfg : Config) (nowIso sid : String) (b : Bool)
    (st : ServerState) (s : Session) (hs : st.sessions sid = some s)
    (hpy : cfg.pyScriptExists = true) :
    ∃ fn, Effect.spawnAnalyzer sid fn b ∈ (processLogsAndAnalyze cfg nowIso sid b st).2 := by
  unfold processLogsAndAnalyze
  rw [hs]
  simp [hpy]

theorem setupSessionTimeout_sessions (now : Nat) (sid : String) (st : ServerState) :
    (setupSessionTimeout now sid st).sessions = st.sessions := rfl

theorem setupSessionTimeout_self (now : Nat) (sid : String) (st : ServerState) :
    (setupSessionTimeout now sid st).sessionTimeouts sid =
      some ⟨st.nextTimerId, now + SESSION_TIMEOUT⟩ := by
  simp [setupSessionTimeout]

theorem setupSessionTimeout_other (now : Nat) (sid sid' : String) (st : ServerState)
    (h : sid' ≠ sid) :
    (setupSessionTimeout now sid st).sessionTimeouts sid' = st.sessionTimeouts sid' := by
  simp [setupSessionTimeout, h]

theorem finalizeSession_state (cfg : Config) (nowIso sid : String) (st : ServerState) :
    (finalizeSession cfg nowIso sid st).1 = st ∨
    ∃ s, st.sessions sid = some s ∧ s.analyzed = false ∧
      (finalizeSession cfg nowIso sid st).1 =
        setSession st sid { s with analyzed := true } := by
  unfold finalizeSession
  cases hs : st.sessions sid with
  | none => left; rfl
  | some s =>
    by_cases ha : s.analyzed
    · left; simp [ha]
    · right
      exact ⟨s, rfl, by simp [ha], by simp [ha, processLogsAndAnalyze_fst]⟩

theorem finalizeSession_timeouts (cfg : Config) (nowIso sid : String) (st : ServerState) :
    (finalizeSession cfg nowIso sid st).1.sessionTimeouts = st.sessionTimeouts := by
  rcases finalizeSession_state cfg nowIso sid st with h | ⟨s, _, _, h⟩ <;> simp [h, setSession]

theorem finalizeSession_nextTimerId (cfg : Config) (nowIso sid : String) (st : ServerState) :
    (finalizeSession cfg nowIso sid st).1.nextTimerId = st.nextTimerId := by
  rcases finalizeSession_state cfg nowIso sid st with h | ⟨s, _, _, h⟩ <;> simp [h, setSession]

theorem finalizeSession_analyzed_true (cfg : Config) (nowIso sid : String)
    (st : ServerState) (s : Session) (hs : st.sessions sid = some s)
    (ha : s.analyzed = true) : finalizeSession cfg nowIso sid st = (st, []) := by
  unfold finalizeSession
  rw [hs]
  simp [ha]

/-! Helper lemmas about the ingestion loop. -/

theorem updEarliest_cons (cur : Option JVal) (p : String × StatObj)
    (rest : List (String × StatObj)) :
    updEarliest cur (p :: rest) = updEarliest (updEarliestStep cur p) rest := rfl

theorem updEarliestStep_some (acc : Option JVal) (p : String × StatObj) (v : JVal)
    (hp : p.2.startTime = some v) :
    updEarliestStep acc p = if (v.truthy && !optTruthy acc) = true then some v else acc := by
  unfold updEarliestStep
  rw [hp]

theorem updEarliestStep_nil (acc : Option JVal) (p : String × StatObj)
    (hp : p.2.startTime = none) : updEarliestStep acc p = acc := by
  unfold updEarliestStep
  rw [hp]

theorem updEarliest_of_truthy (cur : Option JVal) (ps : List (String × StatObj))
    (h : optTruthy cur = true) : updEarliest cur ps = cur := by
  induction ps with
  | nil => rfl
  | cons p rest ih =>
    rw [updEarliest_cons]
    have hstep : updEarliestStep cur p = cur := by
      cases hp : p.2.startTime with
      | none => exact updEarliestStep_nil cur p hp
      | some v =>
        rw [updEarliestStep_some cur p v hp, h]
        simp
    rw [hstep]
    exact ih

theorem updEarliest_none_eq_find (ps : List (String × StatObj)) :
    updEarliest none ps = (ps.filterMap (fun p => p.2.startTime)).find? JVal.truthy := by
  induction ps with
  | nil => rfl
  | cons p rest ih =>
    rw [updEarliest_cons, List.filterMap_cons]
    cases hp : p.2.startTime with
    | none => rw [updEarliestStep_nil _ _ hp]; exact ih
    | some v =>
      rw [updEarliestStep_some _ _ v hp]
      by_cases hv : v.truthy = true
      · rw [if_pos (by simp [hv, optTruthy]), List.find?_cons_of_pos _ hv]
        exact updEarliest_of_truthy (some v) rest (by simpa [optTruthy] using hv)
      · have hv' : v.truthy = false := by simpa using hv
        rw [if_neg (by simp [hv', optTruthy]),
          List.find?_cons_of_neg _ (by simp [hv'] : ¬JVal.truthy v = true)]
        exact ih

theorem updEarliest_all_falsy (cur : Option JVal) (ps : List (String × StatObj))
    (h : ∀ v ∈ ps.filterMap (fun p => p.2.startTime), v.truthy = false) :
    updEarliest cur ps = cur := by
  induction ps with
  | nil => rfl
  | cons p rest ih =>
    have hrest : ∀ v ∈ rest.filterMap (fun p => p.2.startTime), v.truthy = false := by
      intro w hw
      apply h
      rw [List.filterMap_cons]
      cases p.2.startTime
      · simpa using hw
      · simp [hw]
    rw [updEarliest_cons]
    cases hp : p.2.startTime with
    | none => rw [updEarliestStep_nil _ _ hp]; exact ih hrest
    | some v =>
      have hv : v.truthy = false := by
        apply h
        rw [List.filterMap_cons, hp]
        exact List.mem_cons_self _ _
      rw [updEarliestStep_some _ _ v hp, if_neg (by simp [hv])]
      exact ih hrest

theorem processEntry_logs (s : Session) (e : LogEntry) :
    (processEntry s e).logs = s.logs ++ [e] := by
  unfold processEntry
  split <;> rfl

theorem processEntry_earliest (s : Session) (e : LogEntry) :
    (processEntry s e).earliestStatsStartTime =
      updEarliest s.earliestStatsStartTime (entryStatPairs e) := by
  unfold processEntry
  split <;> rfl

theorem processEntry_analyzed (s : Session) (e : LogEntry) :
    (processEntry s e).analyzed = s.analyzed := by
  unfold processEntry
  split <;> rfl

theorem processEntry_timedOut (s : Session) (e : LogEntry) :
    (processEntry s e).timedOut = s.timedOut := by
  unfold processEntry
  split <;> rfl

theorem processEntry_isClosed (s : Session) (e : LogEntry) :
    (processEntry s e).isClosed = (s.isClosed || entryClosesSession e) := by
  unfold processEntry
  split <;> rename_i h <;> simp [h]

theorem foldl_processEntry_logs (entries : List LogEntry) (s : Session) :
    (entries.foldl processEntry s).logs = s.logs ++ entries := by
  induction entries generalizing s with
  | nil => simp
  | cons e rest ih =>
    simp only [List.foldl_cons, ih, processEntry_logs, List.append_assoc,
      List.singleton_append]

theorem foldl_processEntry_earliest (entries : List LogEntry) (s : Session) :
    (entries.foldl processEntry s).earliestStatsStartTime =
      foldEarliest s.earliestStatsStartTime entries := by
  induction entries generalizing s with
  | nil => rfl
  | cons e rest ih =>
    simp only [List.foldl_cons, foldEarliest, ih, processEntry_earliest]

theorem foldl_processEntry_analyzed (entries : List LogEntry) (s : Session) :
    (entries.foldl processEntry s).analyzed = s.analyzed := by
  induction entries generalizing s with
  | nil => rfl
  | cons e rest ih => simp only [List.foldl_cons, ih, processEntry_analyzed]

theorem foldl_processEntry_timedOut (entries : List LogEntry) (s : Session) :
    (entries.foldl processEntry s).timedOut = s.timedOut := by
  induction entries generalizing s with
  | nil => rfl
  | cons e rest ih => simp only [List.foldl_cons, ih, processEntry_timedOut]

theorem foldEarliest_of_truthy (entries : List LogEntry) (cur : Option JVal)
    (h : optTruthy cur = true) : foldEarliest cur entries = cur := by
  induction entries with
  | nil => rfl
  | cons e rest ih =>
    unfold foldEarliest
    simp only [List.foldl_cons, updEarliest_of_truthy cur _ h]
    exact ih

theorem foldEarliest_none_eq_first (entries : List LogEntry) :
    foldEarliest none entries = firstTruthyStart entries := by
  induction entries with
  | nil => rfl
  | cons e rest ih =>
    have hcons : foldEarliest none (e :: rest) =
        foldEarliest (updEarliest none (entryStatPairs e)) rest := rfl
    have hfirst : firstTruthyStart (e :: rest) =
        ((entryStarts e).find? JVal.truthy).or (firstTruthyStart rest) := by
      simp [firstTruthyStart, List.find?_append]
    rw [hcons, hfirst, updEarliest_none_eq_find]
    show foldEarliest ((entryStarts e).find? JVal.truthy) rest = _
    cases hf : (entryStarts e).find? JVal.truthy with
    | none => simpa using ih
    | some v =>
      have hv : v.truthy = true := List.find?_some hf
      simp [foldEarliest_of_truthy rest (some v) (by simpa [optTruthy] using hv)]

/-! Helper lemmas about the POST /log handler. -/

theorem resolveSessionId_header (sid : String) (logs : List LogEntry)
    (h : sid.isEmpty = false) : resolveSessionId (some sid) logs = sid := by
  simp [resolveSessionId, h]

theorem postLog_rejected (cfg : Config) (now : Nat) (nowIso : String)
    (header : Option String) (body : Option (List LogEntry)) (st : ServerState)
    (h : body = none ∨ body = some []) :
    postLog cfg now nowIso header body st = (400, st, []) := by
  rcases h with h | h <;> rw [h] <;> rfl

theorem ingestBatch_shape (cfg : Config) (now : Nat) (nowIso sid : String)
    (logs : List LogEntry) (st1 : ServerState) (s0 : Session)
    (hs0 : st1.sessions sid = some s0) :
    (ingestBatch cfg now nowIso sid logs st1).1 = 200 ∧
    (∃ s', (ingestBatch cfg now nowIso sid logs st1).2.1.sessions sid = some s' ∧
      s'.logs = s0.logs ++ logs ∧
      s'.earliestStatsStartTime = foldEarliest s0.earliestStatsStartTime logs ∧
      s'.timedOut = s0.timedOut ∧
      s'.lastActivityTime = now ∧
      (s'.analyzed = s0.analyzed ∨ s'.analyzed = true)) ∧
    (∀ sid', sid' ≠ sid →
      (ingestBatch cfg now nowIso sid logs st1).2.1.sessions sid' = st1.sessions sid') ∧
    (ingestBatch cfg now nowIso sid logs st1).2.1.sessionTimeouts sid =
      some ⟨st1.nextTimerId, now + SESSION_TIMEOUT⟩ ∧
    (∀ sid', sid' ≠ sid →
      (ingestBatch cfg now nowIso sid logs st1).2.1.sessionTimeouts sid' =
        st1.sessionTimeouts sid') ∧
    (ingestBatch cfg now nowIso sid logs st1).2.1.nextTimerId = st1.nextTimerId + 1 ∧
    (cfg.pyScriptExists = true →
      ∃ fn, Effect.spawnAnalyzer sid fn true ∈
        (ingestBatch cfg now nowIso sid logs st1).2.2) := by
  unfold ingestBatch
  rw [hs0]
  simp only [Option.getD_some, processLogsAndAnalyze_fst]
  set s2 : Session :=
    { logs.foldl processEntry s0 with lastActivityTime := now } with hs2def
  have hs2logs : s2.logs = s0.logs ++ logs := by
    rw [hs2def]; exact foldl_processEntry_logs logs s0
  have hs2early : s2.earliestStatsStartTime = foldEarliest s0.earliestStatsStartTime logs := by
    rw [hs2def]; exact foldl_processEntry_earliest logs s0
  have hs2timed : s2.timedOut = s0.timedOut := by
    rw [hs2def]; exact foldl_processEntry_timedOut logs s0
  have hs2an : s2.analyzed = s0.analyzed := by
    rw [hs2def]; exact foldl_processEntry_analyzed logs s0
  set st2 : ServerState := setSession st1 sid s2 with hst2def
  set st3 : ServerState := setupSessionTimeout now sid st2 with hst3def
  have hst3sess : st3.sessions sid = some s2 := by
    rw [hst3def, setupSessionTimeout_sessions, hst2def]; exact setSession_self _ _ _
  have hst3sess' : ∀ sid', sid' ≠ sid → st3.sessions sid' = st1.sessions sid' := by
    intro sid' h
    rw [hst3def, setupSessionTimeout_sessions, hst2def]; exact setSession_other _ _ _ _ h
  have hst3next : st3.nextTimerId = st1.nextTimerId + 1 := rfl
  have hst3self : st3.sessionTimeouts sid = some ⟨st1.nextTimerId, now + SESSION_TIMEOUT⟩ := by
    rw [hst3def, setupSessionTimeout_self]
    rfl
  have hst3other : ∀ sid', sid' ≠ sid → st3.sessionTimeouts sid' = st1.sessionTimeouts sid' := by
    intro sid' h
    rw [hst3def, setupSessionTimeout_other _ _ _ _ h]; rfl
  have hspawn : cfg.pyScriptExists = true →
      ∃ fn, Effect.spawnAnalyzer sid fn true ∈
        (processLogsAndAnalyze cfg nowIso sid true st2).2 := by
    intro hpy
    exact processLogsAndAnalyze_spawn cfg nowIso sid true st2 s2
      (by rw [hst2def]; exact setSession_self _ _ _) hpy
  split
  case isTrue hclosed =>
    rcases finalizeSession_state cfg nowIso sid st3 with hf | ⟨s, hs, _, hf⟩
    · refine ⟨trivial, ⟨s2, ?_, hs2logs, hs2early, hs2timed, rfl, Or.inl hs2an⟩, ?_, ?_, ?_, ?_, ?_⟩
      · rw [hf]; exact hst3sess
      · intro sid' h; rw [hf]; exact hst3sess' sid' h
      · rw [hf]; exact hst3self
      · intro sid' h; rw [hf]; exact hst3other sid' h
      · rw [hf]; exact hst3next
      · intro hpy
        obtain ⟨fn, hfn⟩ := hspawn hpy
        exact ⟨fn, List.mem_append_left _ hfn⟩
    · rw [hst3sess] at hs
      injection hs with hs
      subst hs
      refine ⟨trivial, ⟨{ s2 with analyzed := true }, ?_, hs2logs, hs2early, hs2timed, rfl,
          Or.inr rfl⟩, ?_, ?_, ?_, ?_, ?_⟩
      · rw [hf]; exact setSession_self _ _ _
      · intro sid' h
        rw [hf, setSession_other _ _ _ _ h]; exact hst3sess' sid' h
      · rw [hf, setSession_timeouts]; exact hst3self
      · intro sid' h; rw [hf, setSession_timeouts]; exact hst3other sid' h
      · rw [hf, setSession_nextTimerId]; exact hst3next
      · intro hpy
        obtain ⟨fn, hfn⟩ := hspawn hpy
        exact ⟨fn, List.mem_append_left _ hfn⟩
  case isFalse hclosed =>
    refine ⟨trivial, ⟨s2, hst3sess, hs2logs, hs2early, hs2timed, rfl, Or.inl hs2an⟩,
      hst3sess', hst3self, hst3other, hst3next, ?_⟩
    intro hpy
    obtain ⟨fn, hfn⟩ := hspawn hpy
    exact ⟨fn, List.mem_append_left _ hfn⟩

/-! Helper lemmas about the event loop. -/

theorem step_analyzerClose_fst (cfg : Config) (st : ServerState) (fsid : String)
    (nlo : Bool) (code : Int) (out : List Char) :
    (step cfg st (Event.analyzerClose fsid nlo code out)).1 = st := by
  show (match st.sessions fsid with
    | some s => (st, analyzerOnClose cfg s fsid out)
    | none => (st, [])).1 = st
  cases st.sessions fsid <;> rfl

theorem step_analyzerClose_snd (cfg : Config) (st : ServerState) (fsid : String)
    (nlo : Bool) (code : Int) (out : List Char) (s : Session)
    (hs : st.sessions fsid = some s) :
    (step cfg st (Event.analyzerClose fsid nlo code out)).2 =
      analyzerOnClose cfg s fsid out := by
  show (match st.sessions fsid with
    | some s => (st, analyzerOnClose cfg s fsid out)
    | none => (st, [])).2 = _
  rw [hs]

/-! Helper lemmas about the timer machinery. -/

theorem fireTimeout_not_armed (cfg : Config) (nowIso sid : String) (tid : Nat)
    (st : ServerState) (h : st.sessionTimeouts sid = none) :
    fireTimeout cfg nowIso sid tid st = (st, []) := by
  unfold fireTimeout
  rw [h]

theorem fireTimeout_stale (cfg : Config) (nowIso sid : String) (tid : Nat)
    (st : ServerState) (t : Timer) (ht : st.sessionTimeouts sid = some t)
    (hne : t.id ≠ tid) :
    fireTimeout cfg nowIso sid tid st = (st, []) := by
  unfold fireTimeout
  rw [ht]
  simp [hne]

theorem fireTimeout_live (cfg : Config) (nowIso sid : String) (st : ServerState)
    (t : Timer) (s : Session) (ht : st.sessionTimeouts sid = some t)
    (hs : st.sessions sid = some s) :
    fireTimeout cfg nowIso sid t.id st =
      (let f := finalizeSession cfg nowIso sid
          (setSession st sid { s with timedOut := true, isClosed := true })
       ({ f.1 with sessionTimeouts := fun i =>
            if i = sid then none else f.1.sessionTimeouts i },
        Effect.logMsg "Session timed out" :: f.2)) := by
  unfold fireTimeout
  rw [ht]
  simp only [if_pos rfl, hs, setSession_self]
  exact if_pos trivial

theorem fireTimeout_live_nosession (cfg : Config) (nowIso sid : String)
    (st : ServerState) (t : Timer) (ht : st.sessionTimeouts sid = some t)
    (hs : st.sessions sid = none) :
    fireTimeout cfg nowIso sid t.id st =
      ({ st with sessionTimeouts := fun i =>
          if i = sid then none else st.sessionTimeouts i },
       [Effect.logMsg "Session timed out"]) := by
  unfold fireTimeout
  rw [ht]
  simp only [if_pos rfl, hs]
  exact if_pos trivial

/-! Monotonicity of the `analyzed` flag. -/

theorem finalizeSession_analyzed_mono (cfg : Config) (nowIso r : String)
    (st : ServerState) (sid : String)
    (h : (st.sessions sid).map Session.analyzed = some true) :
    ((finalizeSession cfg nowIso r st).1.sessions sid).map Session.analyzed = some true := by
  rcases finalizeSession_state cfg nowIso r st with hf | ⟨s, hs, _, hf⟩
  · rw [hf]; exact h
  · rw [hf]
    by_cases hid : sid = r
    · subst hid; rw [setSession_self]; rfl
    · rw [setSession_other _ _ _ _ hid]; exact h

theorem postLog_accepted_existing (cfg : Config) (now : Nat) (nowIso : String)
    (header : Option String) (logs : List LogEntry) (st : ServerState) (s : Session)
    (hne : logs.isEmpty = false)
    (hex : st.sessions (resolveSessionId header logs) = some s) :
    postLog cfg now nowIso header (some logs) st =
      ingestBatch cfg now nowIso (resolveSessionId header logs) logs st := by
  unfold postLog
  simp only [hne, Bool.false_eq_true, if_false, hex]

theorem postLog_accepted_new (cfg : Config) (now : Nat) (nowIso : String)
    (header : Option String) (logs : List LogEntry) (st : ServerState)
    (hne : logs.isEmpty = false)
    (hnone : st.sessions (resolveSessionId header logs) = none) :
    postLog cfg now nowIso header (some logs) st =
      ingestBatch cfg now nowIso (resolveSessionId header logs) logs
        (setSession st (resolveSessionId header logs) (Session.init now)) := by
  unfold postLog
  simp only [hne, Bool.false_eq_true, if_false, hnone]

theorem postLog_analyzed_mono (cfg : Config) (now : Nat) (nowIso : String)
    (header : Option String) (body : Option (List LogEntry)) (st : ServerState)
    (sid : String)
    (h : (st.sessions sid).map Session.analyzed = some true) :
    ((postLog cfg now nowIso header body st).2.1.sessions sid).map Session.analyzed =
      some true := by
  cases body with
  | none => exact h
  | some logs =>
    cases hempt : logs.isEmpty with
    | true =>
      have hnil : logs = [] := by rwa [List.isEmpty_iff] at hempt
      rw [postLog_rejected cfg now nowIso header (some logs) st (Or.inr (by rw [hnil]))]
      exact h
    | false =>
      have main : ∀ st1 : ServerState,
          (∃ s0, st1.sessions (resolveSessionId header logs) = some s0) →
          (st1.sessions sid).map Session.analyzed = some true →
          ((ingestBatch cfg now nowIso (resolveSessionId header logs) logs
              st1).2.1.sessions sid).map Session.analyzed = some true := by
        intro st1 ⟨s0, hs0⟩ h1
        obtain ⟨-, ⟨s', hs', -, -, -, -, han⟩, hothers, -, -, -, -⟩ :=
          ingestBatch_shape cfg now nowIso (resolveSessionId header logs) logs st1 s0 hs0
        by_cases hid : sid = resolveSessionId header logs
        · subst hid
          rw [hs0] at h1
          rw [hs']
          simp only [Option.map_some'] at h1 ⊢
          rcases han with han | han
          · rw [han]; exact h1
          · rw [han]
        · rw [hothers sid hid]
          exact h1
      cases hex : st.sessions (resolveSessionId header logs) with
      | some s =>
        rw [postLog_accepted_existing cfg now nowIso header logs st s hempt hex]
        exact main st ⟨s, hex⟩ h
      | none =>
        rw [postLog_accepted_new cfg now nowIso header logs st hempt hex]
        apply main
        · exact ⟨Session.init now, setSession_self _ _ _⟩
        · by_cases hid : sid = resolveSessionId header logs
          · subst hid
            rw [hex] at h
            exact absurd h (by simp)
          · rw [setSession_other _ _ _ _ hid]
            exact h

theorem fireTimeout_analyzed_mono (cfg : Config) (nowIso fsid : String) (tid : Nat)
    (st : ServerState) (sid : String)
    (h : (st.sessions sid).map Session.analyzed = some true) :
    ((fireTimeout cfg nowIso fsid tid st).1.sessions sid).map Session.analyzed =
      some true := by
  cases ht : st.sessionTimeouts fsid with
  | none => rw [fireTimeout_not_armed cfg nowIso fsid tid st ht]; exact h
  | some t =>
    by_cases hid : t.id = tid
    · subst hid
      cases hs : st.sessions fsid with
      | none =>
        rw [fireTimeout_live_nosession cfg nowIso fsid st t ht hs]
        exact h
      | some s =>
        rw [fireTimeout_live cfg nowIso fsid st t s ht hs]
        have h1 : ((setSession st fsid
            { s with timedOut := true, isClosed := true }).sessions sid).map
              Session.analyzed = some true := by
          by_cases hfs : sid = fsid
          · subst hfs
            rw [setSession_self]
            rw [hs] at h
            simpa using h
          · rw [setSession_other _ _ _ _ hfs]
            exact h
        exact finalizeSession_analyzed_mono cfg nowIso fsid _ sid h1
    · rw [fireTimeout_stale cfg nowIso fsid tid st t ht hid]
      exact h

theorem step_analyzed_mono (cfg : Config) (st : ServerState) (e : Event) (sid : String)
    (h : (st.sessions sid).map Session.analyzed = some true) :
    ((step cfg st e).1.sessions sid).map Session.analyzed = some true := by
  cases e with
  | post now nowIso header body => exact postLog_analyzed_mono cfg now nowIso header body st sid h
  | timerFire nowIso fsid tid => exact fireTimeout_analyzed_mono cfg nowIso fsid tid st sid h
  | analyzerClose fsid nlo code out =>
    rw [step_analyzerClose_fst]
    exact h

/-! Freshness of timer identifiers. -/

theorem fireTimeout_nextTimerId (cfg : Config) (nowIso fsid : String) (tid : Nat)
    (st : ServerState) :
    (fireTimeout cfg nowIso fsid tid st).1.nextTimerId = st.nextTimerId := by
  cases ht : st.sessionTimeouts fsid with
  | none => rw [fireTimeout_not_armed _ _ _ _ _ ht]
  | some t =>
    by_cases hid : t.id = tid
    · subst hid
      cases hs : st.sessions fsid with
      | none => rw [fireTimeout_live_nosession _ _ _ _ t ht hs]
      | some s =>
        rw [fireTimeout_live _ _ _ _ t s ht hs]
        show (finalizeSession cfg nowIso fsid
          (setSession st fsid { s with timedOut := true, isClosed := true })).1.nextTimerId =
            st.nextTimerId
        rw [finalizeSession_nextTimerId, setSession_nextTimerId]
    · rw [fireTimeout_stale _ _ _ _ _ _ ht hid]

theorem fireTimeout_timeouts (cfg : Config) (nowIso fsid : String) (tid : Nat)
    (st : ServerState) (sid' : String) :
    (fireTimeout cfg nowIso fsid tid st).1.sessionTimeouts sid' = st.sessionTimeouts sid' ∨
    (fireTimeout cfg nowIso fsid tid st).1.sessionTimeouts sid' = none := by
  cases ht : st.sessionTimeouts fsid with
  | none => left; rw [fireTimeout_not_armed _ _ _ _ _ ht]
  | some t =>
    by_cases hid : t.id = tid
    · subst hid
      cases hs : st.sessions fsid with
      | none =>
        rw [fireTimeout_live_nosession _ _ _ _ t ht hs]
        by_cases h' : sid' = fsid
        · right; simp [h']
        · left; simp [h']
      | some s =>
        rw [fireTimeout_live _ _ _ _ t s ht hs]
        show (if sid' = fsid then none
          else (finalizeSession cfg nowIso fsid
            (setSession st fsid { s with timedOut := true, isClosed := true
              })).1.sessionTimeouts sid') = st.sessionTimeouts sid' ∨ _
        by_cases h' : sid' = fsid
        · right; simp [h']
        · left
          rw [if_neg h', finalizeSession_timeouts, setSession_timeouts]
    · left; rw [fireTimeout_stale _ _ _ _ _ _ ht hid]

theorem postLog_nextTimerId (cfg : Config) (now : Nat) (nowIso : String)
    (header : Option String) (body : Option (List LogEntry)) (st : ServerState) :
    (postLog cfg now nowIso header body st).2.1.nextTimerId = st.nextTimerId ∨
    (postLog cfg now nowIso header body st).2.1.nextTimerId = st.nextTimerId + 1 := by
  cases body with
  | none => left; rfl
  | some logs =>
    cases hempt : logs.isEmpty with
    | true =>
      have hnil : logs = [] := by rwa [List.isEmpty_iff] at hempt
      rw [postLog_rejected cfg now nowIso header (some logs) st (Or.inr (by rw [hnil]))]
      left; rfl
    | false =>
      right
      cases hex : st.sessions (resolveSessionId header logs) with
      | some s =>
        rw [postLog_accepted_existing cfg now nowIso header logs st s hempt hex]
        obtain ⟨-, -, -, -, -, hnext, -⟩ :=
          ingestBatch_shape cfg now nowIso (resolveSessionId header logs) logs st s hex
        exact hnext
      | none =>
        rw [postLog_accepted_new cfg now nowIso header logs st hempt hex]
        obtain ⟨-, -, -, -, -, hnext, -⟩ :=
          ingestBatch_shape cfg now nowIso (resolveSessionId header logs) logs
            (setSession st (resolveSessionId header logs) (Session.init now))
            (Session.init now) (setSession_self _ _ _)
        rw [hnext, setSession_nextTimerId]

theorem timerInv_postLog (cfg : Config) (now : Nat) (nowIso : String)
    (header : Option String) (body : Option (List LogEntry)) (st : ServerState)
    (h : TimerInv st) : TimerInv (postLog cfg now nowIso header body st).2.1 := by
  cases body with
  | none => exact h
  | some logs =>
    cases hempt : logs.isEmpty with
    | true =>
      have hnil : logs = [] := by rwa [List.isEmpty_iff] at hempt
      rw [postLog_rejected cfg now nowIso header (some logs) st (Or.inr (by rw [hnil]))]
      exact h
    | false =>
      have key : ∀ st1 : ServerState, ∀ s0,
          st1.sessions (resolveSessionId header logs) = some s0 →
          st1.nextTimerId = st.nextTimerId →
          st1.sessionTimeouts = st.sessionTimeouts →
          TimerInv (ingestBatch cfg now nowIso (resolveSessionId header logs) logs
            st1).2.1 := by
        intro st1 s0 hs0 hnext htold
        obtain ⟨-, -, -, hself, hothers, hnextid, -⟩ :=
          ingestBatch_shape cfg now nowIso (resolveSessionId header logs) logs st1 s0 hs0
        intro sid t hts
        rw [hnextid]
        by_cases hid : sid = resolveSessionId header logs
        · subst hid
          rw [hself] at hts
          injection hts with hts
          subst hts
          show st1.nextTimerId < st1.nextTimerId + 1
          omega
        · rw [hothers sid hid, htold] at hts
          have := h sid t hts
          rw [hnext]
          omega
      cases hex : st.sessions (resolveSessionId header logs) with
      | some s =>
        rw [postLog_accepted_existing cfg now nowIso header logs st s hempt hex]
        exact key st s hex rfl rfl
      | none =>
        rw [postLog_accepted_new cfg now nowIso header logs st hempt hex]
        exact key _ (Session.init now) (setSession_self _ _ _) rfl rfl

theorem timerInv_fireTimeout (cfg : Config) (nowIso fsid : String) (tid : Nat)
    (st : ServerState) (h : TimerInv st) :
    TimerInv (fireTimeout cfg nowIso fsid tid st).1 := by
  intro sid t hts
  rw [fireTimeout_nextTimerId]
  rcases fireTimeout_timeouts cfg nowIso fsid tid st sid with he | he
  · rw [he] at hts
    exact h sid t hts
  · rw [he] at hts
    cases hts

theorem timerInv_step (cfg : Config) (st : ServerState) (e : Event)
    (h : TimerInv st) : TimerInv (step cfg st e).1 := by
  cases e with
  | post now nowIso header body => exact timerInv_postLog cfg now nowIso header body st h
  | timerFire nowIso fsid tid => exact timerInv_fireTimeout cfg nowIso fsid tid st h
  | analyzerClose fsid nlo code out =>
    rw [step_analyzerClose_fst]
    exact h

theorem nextTimerId_mono_step (cfg : Config) (st : ServerState) (e : Event) :
    st.nextTimerId ≤ (step cfg st e).1.nextTimerId := by
  cases e with
  | post now nowIso header body =>
    rcases postLog_nextTimerId cfg now nowIso header body st with h | h <;>
      (show st.nextTimerId ≤ (postLog cfg now nowIso header body st).2.1.nextTimerId
       omega)
  | timerFire nowIso fsid tid =>
    rw [show (step cfg st (Event.timerFire nowIso fsid tid)).1 =
      (fireTimeout cfg nowIso fsid tid st).1 from rfl, fireTimeout_nextTimerId]
  | analyzerClose fsid nlo code out =>
    rw [step_analyzerClose_fst]

/-! Per-batch view of the handler and preservation of
`earliestStatsStartTime`. -/

theorem isEmpty_false_of_ne_nil {α : Type} (l : List α) (h : l ≠ []) :
    l.isEmpty = false := by
  cases l with
  | nil => exact absurd rfl h
  | cons a l => rfl

theorem foldEarliest_append (cur : Option JVal) (xs ys : List LogEntry) :
    foldEarliest cur (xs ++ ys) = foldEarliest (foldEarliest cur xs) ys := by
  simp [foldEarliest, List.foldl_append]

theorem postLog_session_view (cfg : Config) (now : Nat) (nowIso sid : String)
    (logs : List LogEntry) (st : ServerState)
    (hsid : sid.isEmpty = false) (hne : logs ≠ []) :
    sessionLogsD (postLog cfg now nowIso (some sid) (some logs) st).2.1 sid =
      sessionLogsD st sid ++ logs ∧
    sessionEarliestD (postLog cfg now nowIso (some sid) (some logs) st).2.1 sid =
      foldEarliest (sessionEarliestD st sid) logs := by
  have hres := resolveSessionId_header sid logs hsid
  have hempty := isEmpty_false_of_ne_nil logs hne
  cases hex : st.sessions sid with
  | some s =>
    have hap := postLog_accepted_existing cfg now nowIso (some sid) logs st s hempty
      (by rw [hres]; exact hex)
    rw [hres] at hap
    rw [hap]
    obtain ⟨-, ⟨s', hs', hlogs, hearly, -, -, -⟩, -, -, -, -, -⟩ :=
      ingestBatch_shape cfg now nowIso sid logs st s hex
    constructor
    · simp [sessionLogsD, hs', hlogs, hex]
    · simp [sessionEarliestD, hs', hearly, hex]
  | none =>
    have hap := postLog_accepted_new cfg now nowIso (some sid) logs st hempty
      (by rw [hres]; exact hex)
    rw [hres] at hap
    rw [hap]
    obtain ⟨-, ⟨s', hs', hlogs, hearly, -, -, -⟩, -, -, -, -, -⟩ :=
      ingestBatch_shape cfg now nowIso sid logs
        (setSession st sid (Session.init now)) (Session.init now) (setSession_self _ _ _)
    constructor
    · simp only [sessionLogsD, hs', Option.map_some', Option.getD_some, hex,
        Option.map_none', Option.getD_none, List.nil_append]
      rw [hlogs]
      simp [Session.init]
    · simp only [sessionEarliestD, hs', Option.map_some', Option.getD_some, hex,
        Option.map_none', Option.getD_none]
      rw [hearly]
      simp [Session.init]

theorem fold_postLog_view (cfg : Config) (sid : String)
    (reqs : List (Nat × String × List LogEntry)) (st : ServerState)
    (hsid : sid.isEmpty = false) (hne : ∀ r ∈ reqs, r.2.2 ≠ []) :
    sessionLogsD
      (reqs.foldl (fun acc r =>
        (postLog cfg r.1 r.2.1 (some sid) (some r.2.2) acc).2.1) st) sid =
      sessionLogsD st sid ++ (reqs.map (fun r => r.2.2)).flatten ∧
    sessionEarliestD
      (reqs.foldl (fun acc r =>
        (postLog cfg r.1 r.2.1 (some sid) (some r.2.2) acc).2.1) st) sid =
      foldEarliest (sessionEarliestD st sid) ((reqs.map (fun r => r.2.2)).flatten) := by
  induction reqs generalizing st with
  | nil => simp [foldEarliest]
  | cons r rest ih =>
    simp only [List.foldl_cons, List.map_cons, List.flatten_cons]
    obtain ⟨hlogs, hearly⟩ :=
      postLog_session_view cfg r.1 r.2.1 sid r.2.2 st hsid (hne r (List.mem_cons_self _ _))
    obtain ⟨ihl, ihe⟩ := ih _ (fun x hx => hne x (List.mem_cons_of_mem _ hx))
    constructor
    · rw [ihl, hlogs, List.append_assoc]
    · rw [ihe, hearly, foldEarliest_append]

theorem finalizeSession_earliest (cfg : Config) (nowIso r : String) (st : ServerState)
    (sid' : String) :
    ((finalizeSession cfg nowIso r st).1.sessions sid').map
        Session.earliestStatsStartTime =
      (st.sessions sid').map Session.earliestStatsStartTime := by
  rcases finalizeSession_state cfg nowIso r st with hf | ⟨s, hs, _, hf⟩
  · rw [hf]
  · rw [hf]
    by_cases hid : sid' = r
    · subst hid; rw [setSession_self, hs]; rfl
    · rw [setSession_other _ _ _ _ hid]

theorem finalizeSession_timedOut (cfg : Config) (nowIso r : String) (st : ServerState)
    (sid' : String) :
    ((finalizeSession cfg nowIso r st).1.sessions sid').map Session.timedOut =
      (st.sessions sid').map Session.timedOut := by
  rcases finalizeSession_state cfg nowIso r st with hf | ⟨s, hs, _, hf⟩
  · rw [hf]
  · rw [hf]
    by_cases hid : sid' = r
    · subst hid; rw [setSession_self, hs]; rfl
    · rw [setSession_other _ _ _ _ hid]

theorem finalizeSession_isClosed (cfg : Config) (nowIso r : String) (st : ServerState)
    (sid' : String) :
    ((finalizeSession cfg nowIso r st).1.sessions sid').map Session.isClosed =
      (st.sessions sid').map Session.isClosed := by
  rcases finalizeSession_state cfg nowIso r st with hf | ⟨s, hs, _, hf⟩
  · rw [hf]
  · rw [hf]
    by_cases hid : sid' = r
    · subst hid; rw [setSession_self, hs]; rfl
    · rw [setSession_other _ _ _ _ hid]

theorem fireTimeout_earliest (cfg : Config) (nowIso fsid : String) (tid : Nat)
    (st : ServerState) (sid' : String) :
    ((fireTimeout cfg nowIso fsid tid st).1.sessions sid').map
        Session.earliestStatsStartTime =
      (st.sessions sid').map Session.earliestStatsStartTime := by
  cases ht : st.sessionTimeouts fsid with
  | none => rw [fireTimeout_not_armed _ _ _ _ _ ht]
  | some t =>
    by_cases hid : t.id = tid
    · subst hid
      cases hs : st.sessions fsid with
      | none => rw [fireTimeout_live_nosession _ _ _ _ t ht hs]
      | some s =>
        rw [fireTimeout_live _ _ _ _ t s ht hs]
        show ((finalizeSession cfg nowIso fsid
          (setSession st fsid { s with timedOut := true, isClosed := true
            })).1.sessions sid').map Session.earliestStatsStartTime = _
        rw [finalizeSession_earliest]
        by_cases h' : sid' = fsid
        · subst h'; rw [setSession_self, hs]; rfl
        · rw [setSession_other _ _ _ _ h']
    · rw [fireTimeout_stale _ _ _ _ _ _ ht hid]

theorem postLog_earliest_mono (cfg : Config) (now : Nat) (nowIso : String)
    (header : Option String) (body : Option (List LogEntry)) (st : ServerState)
    (sid : String) (v : JVal)
    (h : sessionEarliestD st sid = some v) (hv : v.truthy = true) :
    sessionEarliestD (postLog cfg now nowIso header body st).2.1 sid = some v := by
  cases body with
  | none => exact h
  | some logs =>
    cases hempt : logs.isEmpty with
    | true =>
      have hnil : logs = [] := by rwa [List.isEmpty_iff] at hempt
      rw [postLog_rejected cfg now nowIso header (some logs) st (Or.inr (by rw [hnil]))]
      exact h
    | false =>
      have main : ∀ st1 : ServerState, ∀ s0,
          st1.sessions (resolveSessionId header logs) = some s0 →
          sessionEarliestD st1 sid = some v →
          sessionEarliestD
            (ingestBatch cfg now nowIso (resolveSessionId header logs) logs st1).2.1
              sid = some v := by
        intro st1 s0 hs0 h1
        obtain ⟨-, ⟨s', hs', -, hearly, -, -, -⟩, hothers, -, -, -, -⟩ :=
          ingestBatch_shape cfg now nowIso (resolveSessionId header logs) logs st1 s0 hs0
        by_cases hid : sid = resolveSessionId header logs
        · subst hid
          have h0 : s0.earliestStatsStartTime = some v := by
            simpa [sessionEarliestD, hs0] using h1
          rw [sessionEarliestD, hs']
          simp only [Option.map_some', Option.getD_some]
          rw [hearly, h0, foldEarliest_of_truthy logs (some v) (by simpa [optTruthy] using hv)]
        · rw [sessionEarliestD, hothers sid hid]
          simpa [sessionEarliestD] using h1
      cases hex : st.sessions (resolveSessionId header logs) with
      | some s =>
        rw [postLog_accepted_existing cfg now nowIso header logs st s hempt hex]
        exact main st s hex h
      | none =>
        rw [postLog_accepted_new cfg now nowIso header logs st hempt hex]
        apply main _ (Session.init now) (setSession_self _ _ _)
        by_cases hid : sid = resolveSessionId header logs
        · subst hid
          rw [sessionEarliestD, hex] at h
          cases h
        · rw [sessionEarliestD, setSession_other _ _ _ _ hid]
          exact h

theorem step_earliest_mono (cfg : Config) (st : ServerState) (e : Event)
    (sid : String) (v : JVal)
    (h : sessionEarliestD st sid = some v) (hv : v.truthy = true) :
    sessionEarliestD (step cfg st e).1 sid = some v := by
  cases e with
  | post now nowIso header body =>
    exact postLog_earliest_mono cfg now nowIso header body st sid v h hv
  | timerFire nowIso fsid tid =>
    show sessionEarliestD (fireTimeout cfg nowIso fsid tid st).1 sid = some v
    rw [sessionEarliestD, fireTimeout_earliest]
    exact h
  | analyzerClose fsid nlo code out =>
    rw [step_analyzerClose_fst]
    exact h

theorem updEarliest_changed_truthy (ps : List (String × StatObj)) (cur : Option JVal) :
    updEarliest cur ps = cur ∨ optTruthy (updEarliest cur ps) = true := by
  induction ps generalizing cur with
  | nil => left; rfl
  | cons p rest ih =>
    rw [updEarliest_cons]
    cases hp : p.2.startTime with
    | none => rw [updEarliestStep_nil _ _ hp]; exact ih cur
    | some w =>
      rw [updEarliestStep_some _ _ w hp]
      by_cases hcond : (w.truthy && !optTruthy cur) = true
      · rw [if_pos hcond]
        rcases ih (some w) with h | h
        · right
          rw [h]
          simpa [optTruthy] using ((Bool.and_eq_true _ _).mp hcond).1
        · right; exact h
      · rw [if_neg hcond]
        exact ih cur

/-! Characterization of indexOf / lastIndexOf. -/

theorem firstIdxOf_eq_some_iff (c : Char) (l : List Char) (i : Nat) :
    firstIdxOf c l = some i ↔
      l[i]? = some c ∧ ∀ k, k < i → l[k]? ≠ some c := by
  induction l generalizing i with
  | nil => simp [firstIdxOf]
  | cons x xs ih =>
    unfold firstIdxOf
    by_cases hx : x = c
    · rw [if_pos hx]
      constructor
      · intro h
        injection h with h
        subst h
        exact ⟨by simp [hx], by intro k hk; omega⟩
      · rintro ⟨hget, hmin⟩
        cases i with
        | zero => rfl
        | succ n =>
          exact absurd (show (x :: xs)[0]? = some c by simp [hx])
            (hmin 0 (Nat.succ_pos n))
    · rw [if_neg hx]
      constructor
      · intro h
        obtain ⟨i', hi', rfl⟩ : ∃ i', firstIdxOf c xs = some i' ∧ i = i' + 1 := by
          cases hfi : firstIdxOf c xs with
          | none => rw [hfi] at h; cases h
          | some i' => rw [hfi] at h; injection h with h; exact ⟨i', rfl, h.symm⟩
        obtain ⟨hg, hm⟩ := (ih i').mp hi'
        refine ⟨by simpa using hg, ?_⟩
        intro k hk
        cases k with
        | zero =>
          simp only [List.getElem?_cons_zero]
          intro hc
          injection hc with hc
          exact hx hc
        | succ k' =>
          have := hm k' (by omega)
          simpa using this
      · rintro ⟨hget, hmin⟩
        cases i with
        | zero =>
          simp only [List.getElem?_cons_zero] at hget
          injection hget with hget
          exact absurd hget hx
        | succ n =>
          have hg' : xs[n]? = some c := by simpa using hget
          have hm' : ∀ k, k < n → xs[k]? ≠ some c := by
            intro k hk
            have := hmin (k + 1) (by omega)
            simpa using this
          rw [(ih n).mpr ⟨hg', hm'⟩]
          rfl

theorem lastIdxOf_eq_none_iff (c : Char) (l : List Char) :
    lastIdxOf c l = none ↔ ∀ k : Nat, l[k]? ≠ some c := by
  induction l with
  | nil => simp [lastIdxOf]
  | cons x xs ih =>
    unfold lastIdxOf
    cases hfi : lastIdxOf c xs with
    | some j =>
      constructor
      · intro h; cases h
      · intro h
        exfalso
        have hxs : ∀ k : Nat, xs[k]? ≠ some c := by
          intro k
          have := h (k + 1)
          simpa using this
        rw [ih.mpr hxs] at hfi
        cases hfi
    | none =>
      by_cases hx : x = c
      · rw [if_pos hx]
        constructor
        · intro h; cases h
        · intro h
          exact absurd (show (x :: xs)[0]? = some c by simp [hx]) (h 0)
      · rw [if_neg hx]
        constructor
        · intro _ k
          cases k with
          | zero =>
            simp only [List.getElem?_cons_zero]
            intro hc
            injection hc with hc
            exact hx hc
          | succ k' =>
            have := ih.mp hfi k'
            simpa using this
        · intro _; rfl

theorem lastIdxOf_eq_some_iff (c : Char) (l : List Char) (j : Nat) :
    lastIdxOf c l = some j ↔
      l[j]? = some c ∧ ∀ k, j < k → l[k]? ≠ some c := by
  induction l generalizing j with
  | nil => simp [lastIdxOf]
  | cons x xs ih =>
    unfold lastIdxOf
    cases hfi : lastIdxOf c xs with
    | some j' =>
      constructor
      · intro h
        injection h with h
        subst h
        obtain ⟨hg, hm⟩ := (ih j').mp hfi
        refine ⟨by simpa using hg, ?_⟩
        intro k hk
        cases k with
        | zero => omega
        | succ k' =>
          have := hm k' (by omega)
          simpa using this
      · rintro ⟨hget, hmin⟩
        cases j with
        | zero =>
          exfalso
          obtain ⟨hg, -⟩ := (ih j').mp hfi
          have := hmin (j' + 1) (Nat.succ_pos _)
          simp only [List.getElem?_cons_succ] at this
          exact this hg
        | succ n =>
          have hg' : xs[n]? = some c := by simpa using hget
          have hm' : ∀ k, n < k → xs[k]? ≠ some c := by
            intro k hk
            have := hmin (k + 1) (by omega)
            simpa using this
          have hn : lastIdxOf c xs = some n := (ih n).mpr ⟨hg', hm'⟩
          rw [hfi] at hn
          injection hn with hn
          rw [hn]
    | none =>
      have hnone : ∀ k : Nat, xs[k]? ≠ some c := (lastIdxOf_eq_none_iff c xs).mp hfi
      by_cases hx : x = c
      · rw [if_pos hx]
        constructor
        · intro h
          injection h with h
          subst h
          refine ⟨by simp [hx], ?_⟩
          intro k hk
          cases k with
          | zero => omega
          | succ k' =>
            simp only [List.getElem?_cons_succ]
            exact hnone k'
        · rintro ⟨hget, hmin⟩
          cases j with
          | zero => rfl
          | succ n => exact absurd (by simpa using hget) (hnone n)
      · rw [if_neg hx]
        constructor
        · intro h; cases h
        · rintro ⟨hget, hmin⟩
          cases j with
          | zero =>
            simp only [List.getElem?_cons_zero] at hget
            injection hget with hget
            exact absurd hget hx
          | succ n => exact absurd (by simpa using hget) (hnone n)

theorem extractJsonRegion_eq (out : List Char) (i j : Nat)
    (hf : firstIdxOf '{' out = some i) (hl : lastIdxOf '}' out = some j) :
    extractJsonRegion out =
      if i < j then some ((out.drop i).take (j + 1 - i)) else none := by
  unfold extractJsonRegion
  rw [hf, hl]

theorem extractJsonRegion_none_left (out : List Char)
    (hf : firstIdxOf '{' out = none) : extractJsonRegion out = none := by
  unfold extractJsonRegion
  rw [hf]

theorem extractJsonRegion_none_right (out : List Char)
    (hl : lastIdxOf '}' out = none) : extractJsonRegion out = none := by
  unfold extractJsonRegion
  rw [hl]
  cases firstIdxOf '{' out <;> rfl

theorem analyzerOnClose_some (cfg : Config) (s : Session) (sid : String)
    (out j : List Char) (hx : extractJsonRegion out = some j) :
    analyzerOnClose cfg s sid out =
      if cfg.parseJson j = true then
        (if (s.isClosed || s.timedOut) = true then [Effect.writeFinalResults sid j]
         else [])
      else [Effect.logMsg "Could not parse Python output"] := by
  unfold analyzerOnClose
  rw [hx]

theorem analyzerOnClose_nil (cfg : Config) (s : Session) (sid : String)
    (out : List Char) (hx : extractJsonRegion out = none) :
    analyzerOnClose cfg s sid out =
      [Effect.logMsg "No valid JSON found in Python output"] := by
  unfold analyzerOnClose
  rw [hx]

/-! Claim theorems. -/

/-- C1: finalization runs at most once per session.  The first
`finalizeSession` call that observes `analyzed = false` flips the flag
before any further action (the final processing pass runs on a state in
which `analyzed` is already true); a call that observes `analyzed =
true` returns the state untouched with no effects; and once `analyzed =
true` every subsequent event of any kind — closing batches, timer
fires, analyzer exits, in any order — preserves it, so every later
finalization trigger for that session is a no-op. -/
theorem c1_finalization_at_most_once (cfg : Config) (nowIso sid : String)
    (st : ServerState) (s : Session) (hs : st.sessions sid = some s) :
    (s.analyzed = false →
      finalizeSession cfg nowIso sid st =
        processLogsAndAnalyze cfg nowIso sid false
          (setSession st sid { s with analyzed := true }) ∧
      ((finalizeSession cfg nowIso sid st).1.sessions sid).map Session.analyzed =
        some true) ∧
    (s.analyzed = true → finalizeSession cfg nowIso sid st = (st, [])) ∧
    (∀ st' : ServerState, ∀ e : Event,
      (st'.sessions sid).map Session.analyzed = some true →
      ((step cfg st' e).1.sessions sid).map Session.analyzed = some true) := by
  refine ⟨?_, ?_, ?_⟩
  · intro ha
    have heq : finalizeSession cfg nowIso sid st =
        processLogsAndAnalyze cfg nowIso sid false
          (setSession st sid { s with analyzed := true }) := by
      unfold finalizeSession
      rw [hs]
      simp [ha]
    refine ⟨heq, ?_⟩
    rw [heq, processLogsAndAnalyze_fst, setSession_self]
    rfl
  · intro ha
    exact finalizeSession_analyzed_true cfg nowIso sid st s hs ha
  · intro st' e h
    exact step_analyzed_mono cfg st' e sid h

/-- Witness for C1: a finalization call on an already-analyzed session
is a no-op. -/
theorem c1_finalization_at_most_once_witness :
    finalizeSession cfgYes "T" "s1"
        (setSession emptyState "s1" { Session.init 0 with analyzed := true }) =
      (setSession emptyState "s1" { Session.init 0 with analyzed := true }, []) :=
  (c1_finalization_at_most_once cfgYes "T" "s1"
      (setSession emptyState "s1" { Session.init 0 with analyzed := true })
      { Session.init 0 with analyzed := true }
      (setSession_self _ _ _)).2.1 rfl

/-- C2 (code bug): the source has no per-session in-flight guard and no
rerun flag — every accepted batch spawns an analyzer subprocess
unconditionally, so two consecutive POSTs for session "s1" with no
analyzer-exit event in between launch two concurrent processes against
the same output paths, where the specification requires the second
request to be coalesced.  Evaluated at the failing input. -/
theorem c2_no_inflight_guard :
    ((step cfgYes emptyState
        (Event.post 0 "A" (some "s1") (some [plainEntry]))).2.filter isSpawnEffect =
      [Effect.spawnAnalyzer "s1" "A" true]) ∧
    ((step cfgYes
        (step cfgYes emptyState
          (Event.post 0 "A" (some "s1") (some [plainEntry]))).1
        (Event.post 1 "B" (some "s1") (some [plainEntry]))).2.filter isSpawnEffect =
      [Effect.spawnAnalyzer "s1" "B" true]) := by
  constructor <;> rfl

/-- C3 counterexample: a non-final analyzer invocation (spawned with
`newLogsOnly = true` by the per-batch trigger, not by finalization)
still persists its parsed result at the canonical final-result path,
because the close handler keys the write on the session's
isClosed/timedOut flags rather than on the invocation's own flag: the
closing batch for "s1" spawns such a non-final run, and that run's
close event writes final_results.json. -/
theorem c3_nonfinal_run_writes_final_path :
    (Effect.spawnAnalyzer "s1" "NOW" true ∈
      (step cfgYes emptyState
        (Event.post 0 "NOW" (some "s1") (some [closingEntry]))).2) ∧
    ((step cfgYes
        (step cfgYes emptyState
          (Event.post 0 "NOW" (some "s1") (some [closingEntry]))).1
        (Event.analyzerClose "s1" true 0 ['{', '}'])).2 =
      [Effect.writeFinalResults "s1" ['{', '}']]) := by
  constructor
  · decide
  · rfl

/-- C3 (amended): a parsed analyzer result is persisted at the
canonical final-result path if and only if the session's `isClosed` or
`timedOut` flag is true at the moment the analyzer process exits — the
invocation's own final/non-final flag plays no role. -/
theorem c3_final_write_iff_closed_flags (cfg : Config) (st : ServerState)
    (sid : String) (nlo : Bool) (code : Int) (out : List Char) (s : Session)
    (hs : st.sessions sid = some s) :
    (∃ c, Effect.writeFinalResults sid c ∈
        (step cfg st (Event.analyzerClose sid nlo code out)).2) ↔
      (∃ j, extractJsonRegion out = some j ∧ cfg.parseJson j = true) ∧
        (s.isClosed || s.timedOut) = true := by
  rw [step_analyzerClose_snd cfg st sid nlo code out s hs]
  unfold analyzerOnClose
  cases he : extractJsonRegion out with
  | none => simp
  | some j =>
    by_cases hp : cfg.parseJson j
    · by_cases hcl : (s.isClosed || s.timedOut) = true
      · simp [hp, hcl]
      · simp [hp, hcl]
    · simp [hp]

/-- Witness for C3's amended theorem at a closed session and the output
consisting of one brace pair. -/
theorem c3_final_write_iff_closed_flags_witness :
    (∃ c, Effect.writeFinalResults "s1" c ∈
        (step cfgYes (setSession emptyState "s1" { Session.init 0 with isClosed := true })
          (Event.analyzerClose "s1" true 0 ['{', '}'])).2) ↔
      (∃ j, extractJsonRegion ['{', '}'] = some j ∧ cfgYes.parseJson j = true) ∧
        (({ Session.init 0 with isClosed := true } : Session).isClosed ||
          ({ Session.init 0 with isClosed := true } : Session).timedOut) = true :=
  c3_final_write_iff_closed_flags cfgYes
    (setSession emptyState "s1" { Session.init 0 with isClosed := true })
    "s1" true 0 ['{', '}'] { Session.init 0 with isClosed := true }
    (setSession_self _ _ _)

/-- C7: a POST /log whose body is not an array (`none`) or is the empty
array is rejected with a 400 client error, and the whole server state —
the session table, every session record, and every pending timer — is
returned unchanged, with no effects. -/
theorem c7_reject_no_mutation (cfg : Config) (now : Nat) (nowIso : String)
    (header : Option String) (body : Option (List LogEntry)) (st : ServerState)
    (h : body = none ∨ body = some []) :
    postLog cfg now nowIso header body st = (400, st, []) :=
  postLog_rejected cfg now nowIso header body st h

/-- Witness for C7: the empty batch against the fresh server state. -/
theorem c7_reject_no_mutation_witness :
    postLog cfgYes 0 "T" none (some []) emptyState = (400, emptyState, []) :=
  c7_reject_no_mutation cfgYes 0 "T" none (some []) emptyState (Or.inr rfl)

/-- C9: a stat object whose startTime is present but falsy (for example
the number 0 or the empty string) never sets
`earliestStatsStartTime`, even when it is still unset; and whenever
ingesting one entry changes `earliestStatsStartTime`, the recorded
value is truthy. -/
theorem c9_falsy_start_never_recorded (s : Session) (entry : LogEntry)
    (h : ∀ v ∈ entryStarts entry, v.truthy = false) :
    (processEntry s entry).earliestStatsStartTime = s.earliestStatsStartTime ∧
    (∀ s' : Session, ∀ e' : LogEntry,
      (processEntry s' e').earliestStatsStartTime ≠ s'.earliestStatsStartTime →
      optTruthy (processEntry s' e').earliestStatsStartTime = true) := by
  constructor
  · rw [processEntry_earliest]
    exact updEarliest_all_falsy _ _ h
  · intro s' e' hne
    rw [processEntry_earliest] at hne ⊢
    rcases updEarliest_changed_truthy (entryStatPairs e') s'.earliestStatsStartTime with
      h' | h'
    · exact absurd h' hne
    · exact h'

/-- Witness for C9 at the entry whose startTime values are 0 and "". -/
theorem c9_falsy_start_never_recorded_witness :
    (processEntry (Session.init 0) falsyStatsEntry).earliestStatsStartTime =
      (Session.init 0).earliestStatsStartTime :=
  (c9_falsy_start_never_recorded (Session.init 0) falsyStatsEntry (by decide)).1

/-- C4: per-session timer debounce.  The timeout table holds one slot
per session, so at most one timer is pending per session at any
instant; arming overwrites that slot with a freshly drawn identifier
scheduled SESSION_TIMEOUT = 10000 ms from now and leaves other
sessions' timers alone; a fire event whose identifier differs from the
currently armed one (every cleared or superseded handle, since armed
identifiers are drawn fresh below the monotone counter) is a complete
no-op; and the fire of the armed timer sets `timedOut = true` and
`isClosed = true`, invokes `finalizeSession` exactly once (the stated
equation exhibits the single call), and clears the timer handle. -/
theorem c4_timer_debounce_and_fire (cfg : Config) (now : Nat) (nowIso sid : String)
    (st : ServerState) :
    ((setupSessionTimeout now sid st).sessionTimeouts sid =
        some ⟨st.nextTimerId, now + SESSION_TIMEOUT⟩ ∧
      SESSION_TIMEOUT = 10000 ∧
      ∀ sid', sid' ≠ sid →
        (setupSessionTimeout now sid st).sessionTimeouts sid' =
          st.sessionTimeouts sid') ∧
    (∀ tid t, st.sessionTimeouts sid = some t → t.id ≠ tid →
      fireTimeout cfg nowIso sid tid st = (st, [])) ∧
    (TimerInv emptyState ∧
      ∀ st' : ServerState, ∀ e : Event, TimerInv st' → TimerInv (step cfg st' e).1) ∧
    (∀ st' : ServerState, ∀ e : Event, st'.nextTimerId ≤ (step cfg st' e).1.nextTimerId) ∧
    (∀ t s, st.sessionTimeouts sid = some t → st.sessions sid = some s →
      fireTimeout cfg nowIso sid t.id st =
        (let f := finalizeSession cfg nowIso sid
            (setSession st sid { s with timedOut := true, isClosed := true })
         ({ f.1 with sessionTimeouts := fun i =>
              if i = sid then none else f.1.sessionTimeouts i },
          Effect.logMsg "Session timed out" :: f.2)) ∧
      ((fireTimeout cfg nowIso sid t.id st).1.sessions sid).map Session.timedOut =
        some true ∧
      ((fireTimeout cfg nowIso sid t.id st).1.sessions sid).map Session.isClosed =
        some true ∧
      (fireTimeout cfg nowIso sid t.id st).1.sessionTimeouts sid = none) := by
  refine ⟨⟨setupSessionTimeout_self now sid st, rfl,
      fun sid' h => setupSessionTimeout_other now sid sid' st h⟩, ?_, ⟨?_, ?_⟩, ?_, ?_⟩
  · intro tid t ht hne
    exact fireTimeout_stale cfg nowIso sid tid st t ht hne
  · intro sid0 t h
    simp [emptyState] at h
  · intro st' e h
    exact timerInv_step cfg st' e h
  · intro st' e
    exact nextTimerId_mono_step cfg st' e
  · intro t s ht hs
    have heq := fireTimeout_live cfg nowIso sid st t s ht hs
    refine ⟨heq, ?_, ?_, ?_⟩
    · rw [heq]
      show ((finalizeSession cfg nowIso sid
        (setSession st sid { s with timedOut := true, isClosed := true
          })).1.sessions sid).map Session.timedOut = some true
      rw [finalizeSession_timedOut, setSession_self]
      rfl
    · rw [heq]
      show ((finalizeSession cfg nowIso sid
        (setSession st sid { s with timedOut := true, isClosed := true
          })).1.sessions sid).map Session.isClosed = some true
      rw [finalizeSession_isClosed, setSession_self]
      rfl
    · rw [heq]
      show (if sid = sid then none
        else (finalizeSession cfg nowIso sid
          (setSession st sid { s with timedOut := true, isClosed := true
            })).1.sessionTimeouts sid) = none
      rw [if_pos rfl]

/-- Witness for C4: the fire of a superseded timer identifier (5, while
0 is armed) is a no-op. -/
theorem c4_timer_debounce_and_fire_witness :
    fireTimeout cfgYes "T" "s1" 5 stArmed = (stArmed, []) :=
  (c4_timer_debounce_and_fire cfgYes 0 "T" "s1" stArmed).2.1 5 ⟨0, 10000⟩ rfl
    (by decide)

/-- C5: for any sequence of accepted batches POSTed under one session
id, the session's `logs` equals its previous contents followed by the
concatenation of the batches in arrival order — entries are appended in
order, never reordered, never pruned (starting from a state without the
session, `logs` is exactly the concatenation). -/
theorem c5_logs_concat (cfg : Config) (sid : String)
    (reqs : List (Nat × String × List LogEntry)) (st : ServerState)
    (hsid : sid.isEmpty = false) (hne : ∀ r ∈ reqs, r.2.2 ≠ []) :
    sessionLogsD
      (reqs.foldl (fun acc r =>
        (postLog cfg r.1 r.2.1 (some sid) (some r.2.2) acc).2.1) st) sid =
      sessionLogsD st sid ++ (reqs.map (fun r => r.2.2)).flatten :=
  (fold_postLog_view cfg sid reqs st hsid hne).1

/-- Witness for C5: two batches for a fresh session. -/
theorem c5_logs_concat_witness :
    sessionLogsD
      ([((0 : Nat), "A", [plainEntry]), ((1 : Nat), "B", [closingEntry, plainEntry])].foldl
        (fun acc r => (postLog cfgYes r.1 r.2.1 (some "s1") (some r.2.2) acc).2.1)
        emptyState) "s1" =
      sessionLogsD emptyState "s1" ++
        ([((0 : Nat), "A", [plainEntry]),
          ((1 : Nat), "B", [closingEntry, plainEntry])].map (fun r => r.2.2)).flatten :=
  c5_logs_concat cfgYes "s1"
    [((0 : Nat), "A", [plainEntry]), ((1 : Nat), "B", [closingEntry, plainEntry])]
    emptyState rfl (by decide)

/-- C6: `earliestStatsStartTime` is first-write-wins within and across
batches: for a session built from scratch it equals the first truthy
startTime carried by any stat object of any stats entry in arrival
order, and once it holds a (truthy) value no later event — in
particular no later entry with a smaller startTime — ever changes it. -/
theorem c6_earliest_first_write_wins (cfg : Config) (sid : String)
    (reqs : List (Nat × String × List LogEntry)) (st : ServerState)
    (hsid : sid.isEmpty = false) (hne : ∀ r ∈ reqs, r.2.2 ≠ []) :
    (st.sessions sid = none →
      sessionEarliestD
        (reqs.foldl (fun acc r =>
          (postLog cfg r.1 r.2.1 (some sid) (some r.2.2) acc).2.1) st) sid =
        firstTruthyStart ((reqs.map (fun r => r.2.2)).flatten)) ∧
    (∀ v, sessionEarliestD st sid = some v → v.truthy = true →
      ∀ e : Event, sessionEarliestD (step cfg st e).1 sid = some v) := by
  constructor
  · intro hnone
    rw [(fold_postLog_view cfg sid reqs st hsid hne).2]
    have h0 : sessionEarliestD st sid = none := by simp [sessionEarliestD, hnone]
    rw [h0, foldEarliest_none_eq_first]
  · intro v hv htr e
    exact step_earliest_mono cfg st e sid v hv htr

/-- Witness for C6: the scenario with startTime T1 arriving before the
smaller T0 — the recorded value is the first one. -/
theorem c6_earliest_first_write_wins_witness :
    sessionEarliestD
      ([((0 : Nat), "A", [startEntry (JVal.str "T1")]),
        ((1 : Nat), "B", [startEntry (JVal.str "T0")])].foldl
        (fun acc r => (postLog cfgYes r.1 r.2.1 (some "s2") (some r.2.2) acc).2.1)
        emptyState) "s2" =
      firstTruthyStart
        (([((0 : Nat), "A", [startEntry (JVal.str "T1")]),
           ((1 : Nat), "B", [startEntry (JVal.str "T0")])].map (fun r => r.2.2)).flatten) :=
  (c6_earliest_first_write_wins cfgYes "s2"
    [((0 : Nat), "A", [startEntry (JVal.str "T1")]),
     ((1 : Nat), "B", [startEntry (JVal.str "T0")])]
    emptyState rfl (by decide)).1 rfl

/-- C8: the candidate JSON object taken from captured stdout is exactly
the substring from the first brace-open to the last brace-close, and it
exists precisely when a first brace-open at i and a last brace-close at
j with i < j exist; when there is no such region, or the region fails
to parse, the close handler only logs — it performs no filesystem
write — and an analyzer close event never mutates the server state (the
ingestion response was already sent in its own event turn). -/
theorem c8_brace_extraction_and_drop (cfg : Config) (s : Session) (sid : String)
    (out : List Char) :
    (∀ str : List Char, extractJsonRegion out = some str ↔
      ∃ i j : Nat, out[i]? = some '{' ∧ (∀ k, k < i → out[k]? ≠ some '{') ∧
        out[j]? = some '}' ∧ (∀ k, j < k → out[k]? ≠ some '}') ∧ i < j ∧
        str = (out.drop i).take (j + 1 - i)) ∧
    ((∀ j, extractJsonRegion out = some j → cfg.parseJson j = false) →
      ∀ e ∈ analyzerOnClose cfg s sid out, isWriteEffect e = false) ∧
    (∀ nlo : Bool, ∀ code : Int, ∀ st : ServerState,
      (step cfg st (Event.analyzerClose sid nlo code out)).1 = st) := by
  refine ⟨?_, ?_, ?_⟩
  · intro str
    constructor
    · intro h
      cases hf : firstIdxOf '{' out with
      | none => rw [extractJsonRegion_none_left out hf] at h; cases h
      | some i =>
        cases hl : lastIdxOf '}' out with
        | none => rw [extractJsonRegion_none_right out hl] at h; cases h
        | some j =>
          rw [extractJsonRegion_eq out i j hf hl] at h
          by_cases hij : i < j
          · rw [if_pos hij] at h
            injection h with h
            obtain ⟨hg1, hm1⟩ := (firstIdxOf_eq_some_iff _ _ _).mp hf
            obtain ⟨hg2, hm2⟩ := (lastIdxOf_eq_some_iff _ _ _).mp hl
            exact ⟨i, j, hg1, hm1, hg2, hm2, hij, h.symm⟩
          · rw [if_neg hij] at h; cases h
    · rintro ⟨i, j, hg1, hm1, hg2, hm2, hij, rfl⟩
      rw [extractJsonRegion_eq out i j ((firstIdxOf_eq_some_iff _ _ _).mpr ⟨hg1, hm1⟩)
        ((lastIdxOf_eq_some_iff _ _ _).mpr ⟨hg2, hm2⟩), if_pos hij]
  · intro hfail e he
    cases hx : extractJsonRegion out with
    | none =>
      rw [analyzerOnClose_nil cfg s sid out hx] at he
      simp only [List.mem_singleton] at he
      rw [he]
      rfl
    | some j =>
      rw [analyzerOnClose_some cfg s sid out j hx, hfail j hx] at he
      simp only [Bool.false_eq_true, if_false, List.mem_singleton] at he
      rw [he]
      rfl
  · intro nlo code st
    exact step_analyzerClose_fst cfg st sid nlo code out

/-- Witness for C8: unparseable output is dropped with a log only. -/
theorem c8_brace_extraction_and_drop_witness :
    isWriteEffect (Effect.logMsg "Could not parse Python output") = false :=
  (c8_brace_extraction_and_drop cfgNo (Session.init 0) "s1" ['{', '}']).2.1
    (fun _ _ => rfl) (Effect.logMsg "Could not parse Python output") (by decide)

/-- C10: a batch accepted for a session whose `analyzed` flag is
already true is still fully processed — the response is 200, the
entries are appended to `logs`, `lastActivityTime` is refreshed, a
non-final analyzer run is spawned, and the inactivity timer is
rearmed — and when that rearmed timer later fires it sets `timedOut =
true` and `isClosed = true` on the already-analyzed session and clears
the handle, but the finalization it invokes returns without effect:
the fire emits only its console log, no write and no spawn. -/
theorem c10_batch_after_analyzed (cfg : Config) (now : Nat)
    (nowIso nowIso2 sid : String) (logs : List LogEntry) (st : ServerState)
    (s : Session) (hs : st.sessions sid = some s) (han : s.analyzed = true)
    (hsid : sid.isEmpty = false) (hne : logs ≠ []) (hpy : cfg.pyScriptExists = true) :
    (postLog cfg now nowIso (some sid) (some logs) st).1 = 200 ∧
    (∃ s', (postLog cfg now nowIso (some sid) (some logs) st).2.1.sessions sid =
        some s' ∧
      s'.logs = s.logs ++ logs ∧ s'.lastActivityTime = now ∧ s'.analyzed = true) ∧
    (∃ fn, Effect.spawnAnalyzer sid fn true ∈
      (postLog cfg now nowIso (some sid) (some logs) st).2.2) ∧
    (postLog cfg now nowIso (some sid) (some logs) st).2.1.sessionTimeouts sid =
      some ⟨st.nextTimerId, now + SESSION_TIMEOUT⟩ ∧
    (((fireTimeout cfg nowIso2 sid st.nextTimerId
          (postLog cfg now nowIso (some sid) (some logs) st).2.1).1.sessions sid).map
        Session.timedOut = some true ∧
      ((fireTimeout cfg nowIso2 sid st.nextTimerId
          (postLog cfg now nowIso (some sid) (some logs) st).2.1).1.sessions sid).map
        Session.isClosed = some true ∧
      ((fireTimeout cfg nowIso2 sid st.nextTimerId
          (postLog cfg now nowIso (some sid) (some logs) st).2.1).1.sessions sid).map
        Session.analyzed = some true ∧
      (fireTimeout cfg nowIso2 sid st.nextTimerId
          (postLog cfg now nowIso (some sid) (some logs) st).2.1).2 =
        [Effect.logMsg "Session timed out"] ∧
      (fireTimeout cfg nowIso2 sid st.nextTimerId
          (postLog cfg now nowIso (some sid) (some logs) st).2.1).1.sessionTimeouts
        sid = none) := by
  have hempty := isEmpty_false_of_ne_nil logs hne
  have hres := resolveSessionId_header sid logs hsid
  have hap := postLog_accepted_existing cfg now nowIso (some sid) logs st s hempty
    (by rw [hres]; exact hs)
  rw [hres] at hap
  obtain ⟨hstatus, ⟨s', hs', hlogs, hearly, htimed, hlast, hana⟩, -, hself, -, -, hspawn⟩ :=
    ingestBatch_shape cfg now nowIso sid logs st s hs
  have han' : s'.analyzed = true := by
    rcases hana with hana | hana
    · rw [hana, han]
    · exact hana
  have hstat200 : (postLog cfg now nowIso (some sid) (some logs) st).1 = 200 := by
    rw [hap]; exact hstatus
  have hsess' : (postLog cfg now nowIso (some sid) (some logs) st).2.1.sessions sid =
      some s' := by
    rw [hap]; exact hs'
  have htimer' : (postLog cfg now nowIso (some sid) (some logs) st).2.1.sessionTimeouts
      sid = some ⟨st.nextTimerId, now + SESSION_TIMEOUT⟩ := by
    rw [hap]; exact hself
  have hspawn' : ∃ fn, Effect.spawnAnalyzer sid fn true ∈
      (postLog cfg now nowIso (some sid) (some logs) st).2.2 := by
    rw [hap]; exact hspawn hpy
  have hfire : fireTimeout cfg nowIso2 sid st.nextTimerId
      (postLog cfg now nowIso (some sid) (some logs) st).2.1 =
      (let f := finalizeSession cfg nowIso2 sid
          (setSession (postLog cfg now nowIso (some sid) (some logs) st).2.1 sid
            { s' with timedOut := true, isClosed := true })
       ({ f.1 with sessionTimeouts := fun i =>
            if i = sid then none else f.1.sessionTimeouts i },
        Effect.logMsg "Session timed out" :: f.2)) :=
    fireTimeout_live cfg nowIso2 sid
      (postLog cfg now nowIso (some sid) (some logs) st).2.1
      ⟨st.nextTimerId, now + SESSION_TIMEOUT⟩ s' htimer' hsess'
  have hfin : finalizeSession cfg nowIso2 sid
      (setSession (postLog cfg now nowIso (some sid) (some logs) st).2.1 sid
        { s' with timedOut := true, isClosed := true }) =
      (setSession (postLog cfg now nowIso (some sid) (some logs) st).2.1 sid
        { s' with timedOut := true, isClosed := true }, []) :=
    finalizeSession_analyzed_true cfg nowIso2 sid _
      { s' with timedOut := true, isClosed := true } (setSession_self _ _ _)
      (by simpa using han')
  refine ⟨hstat200, ⟨s', hsess', hlogs, hlast, han'⟩, hspawn', htimer', ?_, ?_, ?_, ?_, ?_⟩
  · rw [hfire]
    show ((finalizeSession cfg nowIso2 sid
      (setSession (postLog cfg now nowIso (some sid) (some logs) st).2.1 sid
        { s' with timedOut := true, isClosed := true })).1.sessions sid).map
      Session.timedOut = some true
    rw [hfin, setSession_self]
    rfl
  · rw [hfire]
    show ((finalizeSession cfg nowIso2 sid
      (setSession (postLog cfg now nowIso (some sid) (some logs) st).2.1 sid
        { s' with timedOut := true, isClosed := true })).1.sessions sid).map
      Session.isClosed = some true
    rw [hfin, setSession_self]
    rfl
  · rw [hfire]
    show ((finalizeSession cfg nowIso2 sid
      (setSession (postLog cfg now nowIso (some sid) (some logs) st).2.1 sid
        { s' with timedOut := true, isClosed := true })).1.sessions sid).map
      Session.analyzed = some true
    rw [hfin, setSession_self]
    simpa using han'
  · rw [hfire]
    show Effect.logMsg "Session timed out" ::
      (finalizeSession cfg nowIso2 sid
        (setSession (postLog cfg now nowIso (some sid) (some logs) st).2.1 sid
          { s' with timedOut := true, isClosed := true })).2 =
      [Effect.logMsg "Session timed out"]
    rw [hfin]
  · rw [hfire]
    show (if sid = sid then none
      else (finalizeSession cfg nowIso2 sid
        (setSession (postLog cfg now nowIso (some sid) (some logs) st).2.1 sid
          { s' with timedOut := true, isClosed := true })).1.sessionTimeouts sid) =
      none
    rw [if_pos rfl]

/-- Witness for C10: a batch arriving for an already-analyzed session
still yields 200 with its entries appended. -/
theorem c10_batch_after_analyzed_witness :
    (postLog cfgYes 1 "T" (some "s1") (some [plainEntry])
      (setSession emptyState "s1" { Session.init 0 with analyzed := true })).1 = 200 :=
  (c10_batch_after_analyzed cfgYes 1 "T" "U" "s1" [plainEntry]
    (setSession emptyState "s1" { Session.init 0 with analyzed := true })
    { Session.init 0 with analyzed := true } (setSession_self _ _ _) rfl rfl
    (by decide) rfl).1

end RTCA
